import Mathlib

/-!
Verification development for the labor-market dashboard in `app.py`.

The program loads a CSV of regional labor statistics, renames the aggregate
region label "계" to "전국", records the distinct region labels in first
occurrence order, derives two rounded percentage columns, filters by a year
multiselect and a single region, shows mean KPI cards, a table, and one of
two charts (or a guidance message).

The table is embedded as a `List` of rows with exact rational arithmetic;
`round2` models rounding to two decimal places.
-/

namespace Silla

/-- One raw CSV row: region label, year and the three count columns
(경제활동인구, 취업자, 실업자, all in thousands). -/
structure RawRow where
  region : String
  year : Int
  econActive : ℚ
  employed : ℚ
  unemployed : ℚ
deriving DecidableEq

/-- One preprocessed row: the raw columns together with the two derived
rate columns 취업률 and 실업률 added by `load_and_preprocess_data`. -/
structure Row where
  region : String
  year : Int
  econActive : ℚ
  employed : ℚ
  unemployed : ℚ
  empRate : ℚ
  unempRate : ℚ
deriving DecidableEq

/-- Rounding to two decimal places, as `.round(2)` on the rate columns. -/
def round2 (x : ℚ) : ℚ := ((round (x * 100) : ℤ) : ℚ) / 100

/-- The guarded rate computation of app.py lines 74-78: `np.divide` with
`out=zeros, where=econ!=0`, times 100, rounded to two decimals.  A zero
denominator yields 0 (the zero of the `out` array is kept and `0 * 100`
rounds to 0). -/
def rateOf (num den : ℚ) : ℚ := if den = 0 then 0 else round2 (num / den * 100)

/-- The label rename of app.py line 63: `df['지역'].replace('계', '전국')`. -/
def rename (s : String) : String := if s = "계" then "전국" else s

/-- Distinct elements in first-occurrence order, as
`df['지역'].drop_duplicates().tolist()` (app.py line 66). -/
def dedupFirst : List String → List String
  | [] => []
  | x :: xs => x :: dedupFirst (xs.filter (fun y => y != x))
termination_by l => l.length
decreasing_by
  simp only [List.length_cons]
  exact Nat.lt_succ_of_le (List.length_filter_le _ _)

/-- Preprocess one row: rename its region label and attach the two derived
rate columns. -/
def mkRow (r : RawRow) : Row :=
  ⟨rename r.region, r.year, r.econActive, r.employed, r.unemployed,
    rateOf r.employed r.econActive, rateOf r.unemployed r.econActive⟩

/-- The preprocessed table. -/
def loadRows (raws : List RawRow) : List Row := raws.map mkRow

/-- `original_region_order` of app.py line 66: the distinct region labels of
the renamed column in first-occurrence order. -/
def regionOrder (raws : List RawRow) : List String :=
  dedupFirst ((loadRows raws).map Row.region)

/-- `load_and_preprocess_data` (app.py lines 49-80) restricted to its pure
content: it returns the preprocessed table and the ordered region list. -/
def load_and_preprocess_data (raws : List RawRow) : List Row × List String :=
  (loadRows raws, regionOrder raws)

/-- The fallible load: `none` models the `FileNotFoundError` branch
(app.py lines 56-60), where the function returns `None, None`. -/
def load (file : Option (List RawRow)) : Option (List Row × List String) :=
  file.map load_and_preprocess_data

/-- `display_df` (app.py lines 121-129): first filter by selected years,
then keep all regions for '전국' or exactly the selected region otherwise. -/
def displaySubset (rows : List Row) (years : List Int) (region : String) :
    List Row :=
  let filtered := rows.filter (fun r => decide (r.year ∈ years))
  if region = "전국" then filtered
  else filtered.filter (fun r => decide (r.region = region))

/-- `kpi_df` (app.py lines 134-140): under '전국' only the nationwide rows
of the display subset feed the KPI cards; otherwise the display subset. -/
def kpiSubset (rows : List Row) (years : List Int) (region : String) :
    List Row :=
  let d := displaySubset rows years region
  if region = "전국" then d.filter (fun r => decide (r.region = "전국")) else d

/-- Arithmetic mean of a list of rationals, as the pandas `.mean()` calls
of app.py lines 144-146. -/
def listMean (l : List ℚ) : ℚ := l.sum / l.length

/-- The KPI card values (app.py lines 142-146): `none` models the
`st.info` empty-data branch, `some` the three averages. -/
def summarize (kpi : List Row) : Option (ℚ × ℚ × ℚ) :=
  if kpi.isEmpty then none
  else some (listMean (kpi.map Row.empRate), listMean (kpi.map Row.unempRate),
    listMean (kpi.map Row.econActive))

/-- Stable insertion by ascending year. -/
def insertByYear (r : Row) : List Row → List Row
  | [] => [r]
  | x :: xs => if r.year ≤ x.year then r :: x :: xs else x :: insertByYear r xs

/-- `sort_values('년도')` (app.py line 235): stable sort by ascending year
(the categories of the 년도 column are in ascending numeric order). -/
def sortByYear : List Row → List Row
  | [] => []
  | r :: rs => insertByYear r (sortByYear rs)

/-- Boolean check that consecutive years are ascending. -/
def sortedByYear : List Row → Bool
  | a :: b :: rs => decide (a.year ≤ b.year) && sortedByYear (b :: rs)
  | _ => true

/-- The hard-coded x-axis tick values of the trend chart
(app.py lines 266-268). -/
def trendTicks : List Int := [2021, 2022, 2023, 2024]

/-- The chart dispatch outcome (app.py lines 192-280): a regional
comparison chart, a trend chart, or the guidance message with no chart. -/
inductive ChartOut where
  | regional (year : Int) (rows : List Row)
  | trend (region : String) (points : List Row) (tickVals : List Int)
  | guidance
deriving DecidableEq

def ChartOut.isRegional : ChartOut → Bool
  | .regional _ _ => true
  | _ => false

def ChartOut.isTrend : ChartOut → Bool
  | .trend _ _ _ => true
  | _ => false

def ChartOut.isGuidance : ChartOut → Bool
  | .guidance => true
  | _ => false

/-- The chart dispatch (app.py lines 192, 232, 277): single year and '전국'
gives the regional comparison over the non-nationwide rows; two or more
years and a specific region gives the trend chart over the year-sorted
rows with the fixed tick values; otherwise guidance. -/
def selectChart (years : List Int) (region : String) (display : List Row) :
    ChartOut :=
  if years.length = 1 ∧ region = "전국" then
    ChartOut.regional years.headI
      (display.filter (fun r => decide (r.region ≠ "전국")))
  else if 1 < years.length ∧ region ≠ "전국" then
    ChartOut.trend region (sortByYear display) trendTicks
  else ChartOut.guidance

/-- Everything one pass of `main` renders: the load-failure error, the
empty-year warning, the KPI cards (or the no-data info), the table and the
chart outcome.  `none` fields mean the corresponding widget never renders
because `st.stop()` halted the script. -/
structure Output where
  loadError : Bool
  emptyYearWarning : Bool
  cards : Option (ℚ × ℚ × ℚ)
  noDataInfo : Bool
  table : Option (List Row)
  chart : Option ChartOut
deriving DecidableEq

/-- The control flow of `main` (app.py lines 82-280): load (stopping on
failure), stop with a warning on an empty year selection, otherwise filter,
summarize, render the table and dispatch the chart. -/
def main (file : Option (List RawRow)) (years : List Int) (region : String) :
    Output :=
  match load file with
  | none => ⟨true, false, none, false, none, none⟩
  | some (rows, _order) =>
    if years.isEmpty then ⟨false, true, none, false, none, none⟩
    else
      let display := displaySubset rows years region
      let kpi := kpiSubset rows years region
      ⟨false, false, summarize kpi, kpi.isEmpty, some display,
        some (selectChart years region display)⟩

/-- The region selectbox default (app.py line 103): `index=0` into the
ordered region list. -/
def defaultRegion (order : List String) : Option String := order[0]?

/-- Modelled from the spec: the repository's CSV data file
`경제활동_통합.csv` is not under src/; the spec fixes that the region
selector defaults to nationwide and that the nationwide label sits where
the aggregate label originally sat, so the file's first data row carries
the aggregate label '계'. -/
def aggregateRowFirst (raws : List RawRow) : Prop :=
  (raws.map RawRow.region)[0]? = some "계"

/-- First-occurrence index of a label, 0-based; length when absent. -/
def idxOf (a : String) : List String → Nat
  | [] => 0
  | x :: xs => if x = a then 0 else idxOf a xs + 1

/-- A small concrete table used to instantiate the theorems: an aggregate
row, a regional row, and a row with a zero economically active population. -/
def sampleRaws : List RawRow :=
  [⟨"계", 2023, 1000, 950, 50⟩, ⟨"서울", 2023, 100, 90, 10⟩,
    ⟨"서울", 2022, 0, 3, 4⟩]

/-- C1: every row of the loaded table carries employment rate
`round(employed / econ-active × 100, 2)` and unemployment rate
`round(unemployed / econ-active × 100, 2)`, and both derived rates are the
number 0 (not an error or indeterminate value) when the economically
active population is 0. -/
theorem rates_correct (raws : List RawRow) (r : Row)
    (hr : r ∈ (load_and_preprocess_data raws).1) :
    (r.econActive = 0 → r.empRate = 0 ∧ r.unempRate = 0) ∧
    (r.econActive ≠ 0 →
      r.empRate =
        ((round (r.employed / r.econActive * 100 * 100) : ℤ) : ℚ) / 100 ∧
      r.unempRate =
        ((round (r.unemployed / r.econActive * 100 * 100) : ℤ) : ℚ) / 100) := by
  simp only [load_and_preprocess_data, loadRows, List.mem_map] at hr
  obtain ⟨a, -, rfl⟩ := hr
  constructor
  · intro h0
    simp only [mkRow] at h0 ⊢
    simp [rateOf, h0]
  · intro h0
    simp only [mkRow] at h0 ⊢
    simp [rateOf, round2, h0]

/-- C1 witness: on the sample table the zero-population row gets rate 0 and
the aggregate row gets employment rate 95. -/
theorem rates_correct_witness :
    (mkRow ⟨"서울", 2022, 0, 3, 4⟩).empRate = 0 ∧
    (mkRow ⟨"계", 2023, 1000, 950, 50⟩).empRate = 95 := by
  constructor
  · exact ((rates_correct sampleRaws _
      (List.mem_map_of_mem mkRow (by decide))).1 (by decide)).1
  · have h :=
      ((rates_correct sampleRaws (mkRow ⟨"계", 2023, 1000, 950, 50⟩)
        (List.mem_map_of_mem mkRow (by decide))).2 (by decide)).1
    rw [h]; norm_num [mkRow, rateOf, round2, round_eq]

/-- C7: with an empty year selection, `main` emits the warning and stops:
no cards, no table, no chart, no no-data info. -/
theorem empty_years_halts (file : List RawRow) (region : String) :
    main (some file) [] region = ⟨false, true, none, false, none, none⟩ :=
  rfl

/-- C8: with the input file absent the loader fails, the error is the only
output and nothing downstream renders. -/
theorem file_absent_halts (years : List Int) (region : String) :
    load none = none ∧
    main none years region = ⟨true, false, none, false, none, none⟩ :=
  ⟨rfl, rfl⟩

/-- C2: for a non-empty year selection the dispatch returns the regional
comparison chart iff exactly one year is selected and the region is the
nationwide label, the trend chart iff at least two years are selected and
the region is specific, and the guidance message exactly otherwise. -/
theorem chart_dispatch (years : List Int) (region : String)
    (display : List Row) (_hy : years ≠ []) :
    ((selectChart years region display).isRegional = true ↔
      (years.length = 1 ∧ region = "전국")) ∧
    ((selectChart years region display).isTrend = true ↔
      (1 < years.length ∧ region ≠ "전국")) ∧
    ((selectChart years region display).isGuidance = true ↔
      (¬(years.length = 1 ∧ region = "전국") ∧
        ¬(1 < years.length ∧ region ≠ "전국"))) := by
  unfold selectChart
  split_ifs with h1 h2 <;>
    simp_all [ChartOut.isRegional, ChartOut.isTrend, ChartOut.isGuidance]

/-- C2 witness: one year with 전국 gives the regional chart; two years with
서울 give the trend chart. -/
theorem chart_dispatch_witness :
    (selectChart [2023] "전국" []).isRegional = true ∧
    (selectChart [2022, 2023] "서울" []).isTrend = true := by
  constructor
  · exact (chart_dispatch [2023] "전국" [] (by decide)).1.mpr (by decide)
  · exact (chart_dispatch [2022, 2023] "서울" [] (by decide)).2.1.mpr
      (by decide)

/-- C3: under the nationwide selection the KPI subset holds exactly the
display-subset rows labeled 전국; under a specific region it equals the
display subset. -/
theorem kpi_subset_spec (rows : List Row) (years : List Int)
    (region : String) :
    (region = "전국" →
      ∀ r : Row, r ∈ kpiSubset rows years region ↔
        (r ∈ displaySubset rows years region ∧ r.region = "전국")) ∧
    (region ≠ "전국" →
      kpiSubset rows years region = displaySubset rows years region) := by
  constructor
  · intro h r
    simp [kpiSubset, h, List.mem_filter]
  · intro h
    simp [kpiSubset, h]

/-- C3 witness: instantiation on the sample table for both region cases. -/
theorem kpi_subset_spec_witness :
    (mkRow ⟨"계", 2023, 1000, 950, 50⟩ ∈
        kpiSubset (loadRows sampleRaws) [2023] "전국" ↔
      (mkRow ⟨"계", 2023, 1000, 950, 50⟩ ∈
          displaySubset (loadRows sampleRaws) [2023] "전국" ∧
        (mkRow ⟨"계", 2023, 1000, 950, 50⟩).region = "전국")) ∧
    kpiSubset (loadRows sampleRaws) [2023] "서울" =
      displaySubset (loadRows sampleRaws) [2023] "서울" :=
  ⟨(kpi_subset_spec (loadRows sampleRaws) [2023] "전국").1 rfl _,
    (kpi_subset_spec (loadRows sampleRaws) [2023] "서울").2 (by decide)⟩

/-- C4: the display subset holds exactly the table rows whose year is
selected and whose region matches (any region under 전국, exact match
otherwise); an empty result is the empty list, not an error. -/
theorem display_subset_spec (rows : List Row) (years : List Int)
    (region : String) (_hy : years ≠ []) (r : Row) :
    r ∈ displaySubset rows years region ↔
      (r ∈ rows ∧ r.year ∈ years ∧
        (region = "전국" ∨ r.region = region)) := by
  by_cases h : region = "전국"
  · simp [displaySubset, h, List.mem_filter]
  · simp only [displaySubset, h, if_false, List.mem_filter,
      decide_eq_true_eq]
    tauto

/-- Rows of the display subset come from the underlying table. -/
lemma mem_of_mem_displaySubset {rows : List Row} {years : List Int}
    {region : String} {r : Row} (h : r ∈ displaySubset rows years region) :
    r ∈ rows := by
  by_cases hreg : region = "전국" <;>
    simp [displaySubset, hreg, List.mem_filter] at h <;> tauto

/-- Rows of the KPI subset come from the underlying table. -/
lemma mem_of_mem_kpiSubset {rows : List Row} {years : List Int}
    {region : String} {r : Row} (h : r ∈ kpiSubset rows years region) :
    r ∈ rows := by
  by_cases hreg : region = "전국" <;> simp [kpiSubset, hreg] at h
  · exact mem_of_mem_displaySubset h.1
  · exact mem_of_mem_displaySubset h

/-- Every loaded row carries the derived guarded, rounded rates in its two
rate columns. -/
lemma loaded_row_rates {raws : List RawRow} {r : Row}
    (h : r ∈ loadRows raws) :
    r.empRate = rateOf r.employed r.econActive ∧
    r.unempRate = rateOf r.unemployed r.econActive := by
  simp only [loadRows, List.mem_map] at h
  obtain ⟨a, -, rfl⟩ := h
  exact ⟨rfl, rfl⟩

/-- C9: for a non-empty KPI subset the card values are the unweighted
arithmetic means of the already-derived rounded rate columns and of the
economically active population column — a mean of rates, not a rate of
summed counts. -/
theorem kpi_means (raws : List RawRow) (years : List Int) (region : String)
    (hy : years ≠ [])
    (hk : kpiSubset (loadRows raws) years region ≠ []) :
    (main (some raws) years region).cards =
      some
        (((kpiSubset (loadRows raws) years region).map Row.empRate).sum /
            ((kpiSubset (loadRows raws) years region).map Row.empRate).length,
          ((kpiSubset (loadRows raws) years region).map Row.unempRate).sum /
            ((kpiSubset (loadRows raws) years
              region).map Row.unempRate).length,
          ((kpiSubset (loadRows raws) years region).map Row.econActive).sum /
            ((kpiSubset (loadRows raws) years
              region).map Row.econActive).length) ∧
    ∀ r ∈ kpiSubset (loadRows raws) years region,
      r.empRate = rateOf r.employed r.econActive ∧
      r.unempRate = rateOf r.unemployed r.econActive := by
  constructor
  · have hc : (main (some raws) years region).cards =
        summarize (kpiSubset (loadRows raws) years region) := by
      obtain ⟨y, ys, rfl⟩ := List.exists_cons_of_ne_nil hy
      rfl
    rw [hc]
    simp [summarize, listMean, hk]
  · intro r hr
    exact loaded_row_rates (mem_of_mem_kpiSubset hr)

/-- C9 witness: on the sample table with year 2023 and region 전국 the
cards hold 95 % employment, 5 % unemployment and 1000 thousand persons,
the values of the single nationwide row. -/
theorem kpi_means_witness :
    (main (some sampleRaws) [2023] "전국").cards = some (95, 5, 1000) := by
  rw [(kpi_means sampleRaws [2023] "전국" (by decide) (by decide)).1]
  have hkpi : kpiSubset (loadRows sampleRaws) [2023] "전국" =
      [mkRow ⟨"계", 2023, 1000, 950, 50⟩] := rfl
  rw [hkpi]
  norm_num [mkRow, rateOf, round2, round_eq]

/-- C10: when the aggregate row leads the file, the default region
selection (`index=0` into the ordered region list) is the nationwide
label. -/
theorem default_region_nationwide (raws : List RawRow)
    (h : aggregateRowFirst raws) :
    defaultRegion (load_and_preprocess_data raws).2 = some "전국" := by
  obtain ⟨r, rest, rfl⟩ : ∃ r rest, raws = r :: rest := by
    cases raws with
    | nil => simp [aggregateRowFirst] at h
    | cons a l => exact ⟨a, l, rfl⟩
  have hr : r.region = "계" := by
    simpa [aggregateRowFirst] using h
  simp [defaultRegion, load_and_preprocess_data, regionOrder, loadRows,
    dedupFirst, mkRow, rename, hr]

/-- C10 witness: the sample table starts with the aggregate row and its
region list indeed starts with 전국. -/
theorem default_region_nationwide_witness :
    defaultRegion (load_and_preprocess_data sampleRaws).2 = some "전국" :=
  default_region_nationwide sampleRaws rfl

/-- C4 witness: the 서울 2023 row is in the nationwide display subset of
the sample table. -/
theorem display_subset_spec_witness :
    mkRow ⟨"서울", 2023, 100, 90, 10⟩ ∈
        displaySubset (loadRows sampleRaws) [2023] "전국" ↔
      (mkRow ⟨"서울", 2023, 100, 90, 10⟩ ∈ loadRows sampleRaws ∧
        (mkRow ⟨"서울", 2023, 100, 90, 10⟩).year ∈ [(2023 : Int)] ∧
        ("전국" = "전국" ∨
          (mkRow ⟨"서울", 2023, 100, 90, 10⟩).region = "전국")) :=
  display_subset_spec (loadRows sampleRaws) [2023] "전국" (by decide) _

/-- Elements of `dedupFirst l` occur in `l`. -/
lemma mem_of_mem_dedupFirst {a : String} : ∀ {l : List String},
    a ∈ dedupFirst l → a ∈ l := by
  intro l
  induction l using dedupFirst.induct with
  | case1 => simp [dedupFirst]
  | case2 x xs ih =>
    intro h
    simp only [dedupFirst, List.mem_cons] at h
    rcases h with h1 | h2
    · exact h1 ▸ List.mem_cons_self x xs
    · exact List.mem_cons_of_mem x (List.mem_filter.mp (ih h2)).1

/-- The rename map is injective away from the nationwide label. -/
lemma rename_eq_iff {a b : String} (ha : a ≠ "전국") (hb : b ≠ "전국") :
    rename a = rename b ↔ a = b := by
  unfold rename
  split_ifs with h1 h2 h2
  · subst h1; subst h2; simp
  · subst h1
    exact iff_of_false (fun h => hb h.symm) (fun h => h2 h.symm)
  · subst h2
    exact iff_of_false ha h1
  · exact Iff.rfl

/-- First-occurrence index of the nationwide label after the rename equals
the first-occurrence index of the aggregate label before it, provided the
nationwide label is not already present. -/
lemma idxOf_rename : ∀ {l : List String}, "전국" ∉ l →
    idxOf "전국" (l.map rename) = idxOf "계" l := by
  intro l
  induction l with
  | nil => intro _; rfl
  | cons x xs ih =>
    intro hl
    have hx : x ≠ "전국" := fun h => hl (h ▸ List.mem_cons_self x xs)
    have hxs : "전국" ∉ xs := fun h => hl (List.mem_cons_of_mem x h)
    by_cases hk : x = "계"
    · simp [idxOf, rename, hk]
    · have hrx : rename x ≠ "전국" := by simp [rename, hk, hx]
      simp [idxOf, hrx, hk, ih hxs]

/-- Deduplication commutes with the rename, provided the nationwide label
is not already present. -/
lemma dedupFirst_map_rename : ∀ {l : List String}, "전국" ∉ l →
    dedupFirst (l.map rename) = (dedupFirst l).map rename := by
  intro l
  induction l using dedupFirst.induct with
  | case1 => intro _; simp [dedupFirst]
  | case2 x xs ih =>
    intro hl
    have hx : x ≠ "전국" := fun h => hl (h ▸ List.mem_cons_self x xs)
    have hxs : "전국" ∉ xs := fun h => hl (List.mem_cons_of_mem x h)
    have hfilter : (xs.map rename).filter (fun y => y != rename x) =
        (xs.filter (fun y => y != x)).map rename := by
      rw [List.filter_map]
      congr 1
      apply List.filter_congr
      intro y hy
      have hyn : y ≠ "전국" := fun h => hxs (h ▸ hy)
      simp only [Function.comp_apply]
      rw [Bool.eq_iff_iff, bne_iff_ne, bne_iff_ne]
      exact not_congr (rename_eq_iff hyn hx)
    have hsub : "전국" ∉ xs.filter (fun y => y != x) :=
      fun h => hxs (List.mem_filter.mp h).1
    simp only [List.map_cons, dedupFirst, hfilter, ih hsub]

/-- A table whose raw region column already contains the nationwide label
ahead of the aggregate label: the rename merges the two labels. -/
def cexRaws : List RawRow :=
  [⟨"전국", 2023, 1, 1, 0⟩, ⟨"계", 2023, 1, 1, 0⟩]

/-- C5 counterexample: on a file whose region column is [전국, 계] the
loaded region list is [전국], so the nationwide label sits at index 0
while the aggregate label originally occupied index 1 — the positions
differ, refuting the claim for arbitrary input files. -/
theorem region_order_position_cex :
    regionOrder cexRaws = ["전국"] ∧
    idxOf "전국" (regionOrder cexRaws) = 0 ∧
    idxOf "계" (dedupFirst (cexRaws.map RawRow.region)) = 1 ∧
    idxOf "전국" (regionOrder cexRaws) ≠
      idxOf "계" (dedupFirst (cexRaws.map RawRow.region)) := by
  have h1 : regionOrder cexRaws = ["전국"] := by
    simp [regionOrder, loadRows, cexRaws, mkRow, rename, dedupFirst]
  have h2 : dedupFirst (cexRaws.map RawRow.region) = ["전국", "계"] := by
    simp [cexRaws, dedupFirst]
  refine ⟨h1, ?_, ?_, ?_⟩ <;> simp [h1, h2, idxOf]

/-- C5 (amended): for a file whose raw region column does not already
contain the nationwide label, the loaded region list is the distinct
labels in first-occurrence order after the rename, the nationwide label
sits exactly where the aggregate label originally sat, and repeated loads
of the unchanged file return equal output. -/
theorem region_order_spec (raws : List RawRow)
    (h : "전국" ∉ raws.map RawRow.region) :
    regionOrder raws = dedupFirst ((raws.map RawRow.region).map rename) ∧
    idxOf "전국" (regionOrder raws) =
      idxOf "계" (dedupFirst (raws.map RawRow.region)) ∧
    load_and_preprocess_data raws = load_and_preprocess_data raws := by
  have hmap : (loadRows raws).map Row.region =
      (raws.map RawRow.region).map rename := by
    simp [loadRows, List.map_map, mkRow, Function.comp_def]
  refine ⟨by rw [regionOrder, hmap], ?_, rfl⟩
  rw [regionOrder, hmap, dedupFirst_map_rename h]
  exact idxOf_rename fun hm => h (mem_of_mem_dedupFirst hm)

/-- C5 witness: instantiation of the amended claim on the sample table,
whose raw regions are [계, 서울, 서울]. -/
theorem region_order_spec_witness :
    regionOrder sampleRaws =
      dedupFirst ((sampleRaws.map RawRow.region).map rename) ∧
    idxOf "전국" (regionOrder sampleRaws) =
      idxOf "계" (dedupFirst (sampleRaws.map RawRow.region)) ∧
    load_and_preprocess_data sampleRaws =
      load_and_preprocess_data sampleRaws :=
  region_order_spec sampleRaws (by decide)

/-- Inserting into a year-sorted list keeps it year-sorted. -/
lemma sortedByYear_insert (r : Row) : ∀ l : List Row,
    sortedByYear l = true → sortedByYear (insertByYear r l) = true := by
  intro l
  induction l with
  | nil => intro _; rfl
  | cons x xs ih =>
    intro h
    rw [insertByYear]
    by_cases hrx : r.year ≤ x.year
    · rw [if_pos hrx]
      simp only [sortedByYear, Bool.and_eq_true, decide_eq_true_eq]
      exact ⟨hrx, h⟩
    · rw [if_neg hrx]
      cases xs with
      | nil =>
        simp only [insertByYear, sortedByYear, Bool.and_eq_true,
          decide_eq_true_eq]
        exact ⟨by omega, trivial⟩
      | cons y ys =>
        simp only [sortedByYear, Bool.and_eq_true, decide_eq_true_eq] at h
        obtain ⟨hxy, hs⟩ := h
        have ihy := ih hs
        rw [insertByYear] at ihy ⊢
        by_cases hry : r.year ≤ y.year
        · rw [if_pos hry] at ihy ⊢
          simp only [sortedByYear, Bool.and_eq_true, decide_eq_true_eq]
            at ihy ⊢
          exact ⟨by omega, ihy⟩
        · rw [if_neg hry] at ihy ⊢
          simp only [sortedByYear, Bool.and_eq_true, decide_eq_true_eq]
            at ihy ⊢
          exact ⟨hxy, ihy⟩

/-- The year sort produces a year-sorted list. -/
lemma sortedByYear_sortByYear (l : List Row) :
    sortedByYear (sortByYear l) = true := by
  induction l with
  | nil => rfl
  | cons r rs ih => exact sortedByYear_insert r (sortByYear rs) ih

/-- Insertion is a permutation of consing. -/
lemma insertByYear_perm (r : Row) : ∀ l : List Row,
    (insertByYear r l).Perm (r :: l) := by
  intro l
  induction l with
  | nil => exact List.Perm.refl _
  | cons x xs ih =>
    rw [insertByYear]
    by_cases h : r.year ≤ x.year
    · rw [if_pos h]
    · rw [if_neg h]
      exact (List.Perm.cons x ih).trans (List.Perm.swap r x xs)

/-- The year sort permutes its input. -/
lemma sortByYear_perm (l : List Row) : (sortByYear l).Perm l := by
  induction l with
  | nil => exact List.Perm.refl _
  | cons r rs ih =>
    exact (insertByYear_perm r (sortByYear rs)).trans (List.Perm.cons r ih)

/-- A table whose years lie outside the hard-coded tick range. -/
def cexTrendRaws : List RawRow :=
  [⟨"부산", 2020, 100, 80, 20⟩, ⟨"부산", 2019, 100, 90, 10⟩]

/-- C6 counterexample: selecting years 2019 and 2020 with region 부산
produces the trend chart, its plotted years are 2019 and 2020, yet its
explicit tick values do not contain 2019 — the ticks are hard-coded to
2021-2024, not taken from the data's year range. -/
theorem trend_ticks_cex :
    (selectChart [2019, 2020] "부산" (loadRows cexTrendRaws)).isTrend =
      true ∧
    (sortByYear (loadRows cexTrendRaws)).map Row.year = [2019, 2020] ∧
    trendTicks.contains 2019 = false ∧
    selectChart [2019, 2020] "부산" (loadRows cexTrendRaws) =
      ChartOut.trend "부산" (sortByYear (loadRows cexTrendRaws))
        trendTicks :=
  ⟨by decide, by decide, by decide, rfl⟩

/-- C6 (amended): whenever the trend chart is rendered (two or more years,
specific region) its x values are the numeric years of the display rows
sorted in ascending year order (a permutation of the display subset), and
its x axis carries the fixed explicit tick values 2021-2024 regardless of
the data's year range. -/
theorem trend_chart_spec (years : List Int) (region : String)
    (display : List Row) (h2 : 2 ≤ years.length) (hr : region ≠ "전국") :
    selectChart years region display =
      ChartOut.trend region (sortByYear display) trendTicks ∧
    sortedByYear (sortByYear display) = true ∧
    (sortByYear display).Perm display ∧
    trendTicks = [2021, 2022, 2023, 2024] := by
  have hneg : ¬(years.length = 1 ∧ region = "전국") := by
    rintro ⟨h1, -⟩; omega
  have hpos : 1 < years.length ∧ region ≠ "전국" := ⟨by omega, hr⟩
  refine ⟨?_, sortedByYear_sortByYear display, sortByYear_perm display, rfl⟩
  unfold selectChart
  rw [if_neg hneg, if_pos hpos]

/-- C6 witness: two years and region 서울 yield the trend chart over the
year-sorted rows with the fixed ticks. -/
theorem trend_chart_spec_witness :
    selectChart [2022, 2023] "서울" (loadRows sampleRaws) =
      ChartOut.trend "서울" (sortByYear (loadRows sampleRaws)) trendTicks :=
  (trend_chart_spec [2022, 2023] "서울" (loadRows sampleRaws) (by decide)
    (by decide)).1

end Silla
